import Mathlib

/- Verification of the motorcycle-physics core (script.js): procedural terrain,
   the two-wheel rigid frame, the distance constraint, terrain collision
   response, and the fixed-order simulation step.

   Numbers are embedded as real numbers; the collision and constraint code
   needs `sqrt`, `cos`, `sin`, `atan`, `atan2`, so the embedding is
   noncomputable and concrete runs are evaluated by `simp`/`norm_num`. -/

namespace Click

/-- A terrain segment, as pushed by `generateTrack`: starting x coordinate,
    starting y coordinate, slope (rise over run) and horizontal length. -/
structure Seg where
  x : ℝ
  y : ℝ
  slope : ℝ
  length : ℝ

/-- The line of a segment evaluated at `x`: `seg.y + seg.slope * (x - seg.x)`. -/
noncomputable def lineAt (seg : Seg) (x : ℝ) : ℝ := seg.y + seg.slope * (x - seg.x)

/-- The loop test of `getTrackY` and `getTrackSlope`:
    `x >= seg.x && x <= seg.x + seg.length`. -/
def inSeg (x : ℝ) (seg : Seg) : Prop := seg.x ≤ x ∧ x ≤ seg.x + seg.length

noncomputable instance (x : ℝ) (seg : Seg) : Decidable (inSeg x seg) := by
  unfold inSeg; exact instDecidableAnd

/-- `getTrackY`: scan the segments in order and return the line value of the
    first segment whose span contains `x`; if none contains it, extend the last
    segment's line.  (On an empty track the source would index `undefined` and
    produce NaN; the game never queries an empty track, we return 0 there.) -/
noncomputable def getTrackY (track : List Seg) (x : ℝ) : ℝ :=
  match track.find? (fun seg => decide (inSeg x seg)) with
  | some seg => lineAt seg x
  | none =>
    match track.getLast? with
    | some seg => lineAt seg x
    | none => 0

/-- `getTrackSlope`: same scan as `getTrackY`, returning the matching segment's
    slope, or the last segment's slope when no segment contains `x`. -/
noncomputable def getTrackSlope (track : List Seg) (x : ℝ) : ℝ :=
  match track.find? (fun seg => decide (inSeg x seg)) with
  | some seg => seg.slope
  | none =>
    match track.getLast? with
    | some seg => seg.slope
    | none => 0

/-- The loop body of `generateTrack`: push `{x, y, slope, length: 400}`, then
    advance `y` by `slope * 400` and `x` by `400` for each drawn slope. -/
noncomputable def buildTrack (x y : ℝ) : List ℝ → List Seg
  | [] => []
  | s :: rest => ⟨x, y, s, 400⟩ :: buildTrack (x + 400) (y + s * 400) rest

/-- `generateTrack`, parametrised by the starting height (the source computes it
    from the canvas height) and by the list of random slope draws; the source
    draws 50 slopes, each in `(-0.2, 0.2)`, and starts at `x = 0`. -/
noncomputable def generateTrack (startY : ℝ) (slopes : List ℝ) : List Seg :=
  buildTrack 0 startY slopes

/-- If no segment's span contains `x`, both track queries fall through to the
    last segment of the track. -/
theorem getTrack_eq_last (track : List Seg) (x : ℝ) (hne : track ≠ [])
    (h : ∀ seg ∈ track, ¬ inSeg x seg) :
    getTrackY track x = lineAt (track.getLast hne) x ∧
    getTrackSlope track x = (track.getLast hne).slope := by
  have hfind : track.find? (fun seg => decide (inSeg x seg)) = none := by
    rw [List.find?_eq_none]
    intro seg hseg
    simpa using h seg hseg
  have hlast : track.getLast? = some (track.getLast hne) :=
    List.getLast?_eq_getLast_of_ne_nil hne
  constructor
  · unfold getTrackY
    rw [hfind, hlast]
  · unfold getTrackSlope
    rw [hfind, hlast]

/-- Every `buildTrack` result is made of segments whose `x` fields are
    contiguous and whose `y` fields continue the previous segment's line,
    stated for an adjacent pair of indices. -/
theorem buildTrack_adjacent (slopes : List ℝ) :
    ∀ (x y : ℝ) (i : ℕ) (h : i + 1 < (buildTrack x y slopes).length),
      ((buildTrack x y slopes).get ⟨i + 1, h⟩).x
        = ((buildTrack x y slopes).get ⟨i, Nat.lt_of_succ_lt h⟩).x
          + ((buildTrack x y slopes).get ⟨i, Nat.lt_of_succ_lt h⟩).length ∧
      ((buildTrack x y slopes).get ⟨i + 1, h⟩).y
        = ((buildTrack x y slopes).get ⟨i, Nat.lt_of_succ_lt h⟩).y
          + ((buildTrack x y slopes).get ⟨i, Nat.lt_of_succ_lt h⟩).slope
            * ((buildTrack x y slopes).get ⟨i, Nat.lt_of_succ_lt h⟩).length := by
  induction slopes with
  | nil => intro x y i h; simp [buildTrack] at h
  | cons s rest ih =>
    intro x y i h
    match i with
    | 0 =>
      cases rest with
      | nil => simp [buildTrack] at h
      | cons s2 r2 => simp [buildTrack]
    | Nat.succ j =>
      have h' : j + 1 < (buildTrack (x + 400) (y + s * 400) rest).length := by
        simpa [buildTrack] using h
      simpa [buildTrack] using ih (x + 400) (y + s * 400) j h'

/-- C6: for every generated terrain, segments are contiguous
    (`seg[i].x + seg[i].length = seg[i+1].x`), each segment's start height
    continues the previous segment's line
    (`seg[i+1].y = seg[i].y + seg[i].slope * seg[i].length`), the first segment
    starts at `x = 0`, and consequently the two segments' line equations agree
    at the shared boundary, so the height field is continuous there. -/
theorem C6_terrain_continuity (startY : ℝ) (slopes : List ℝ) (i : ℕ)
    (h : i + 1 < (generateTrack startY slopes).length) :
    ((generateTrack startY slopes).get ⟨0, Nat.lt_of_le_of_lt (Nat.zero_le _) h⟩).x = 0 ∧
    ((generateTrack startY slopes).get ⟨i + 1, h⟩).x
      = ((generateTrack startY slopes).get ⟨i, Nat.lt_of_succ_lt h⟩).x
        + ((generateTrack startY slopes).get ⟨i, Nat.lt_of_succ_lt h⟩).length ∧
    ((generateTrack startY slopes).get ⟨i + 1, h⟩).y
      = ((generateTrack startY slopes).get ⟨i, Nat.lt_of_succ_lt h⟩).y
        + ((generateTrack startY slopes).get ⟨i, Nat.lt_of_succ_lt h⟩).slope
          * ((generateTrack startY slopes).get ⟨i, Nat.lt_of_succ_lt h⟩).length ∧
    lineAt ((generateTrack startY slopes).get ⟨i, Nat.lt_of_succ_lt h⟩)
        (((generateTrack startY slopes).get ⟨i, Nat.lt_of_succ_lt h⟩).x
          + ((generateTrack startY slopes).get ⟨i, Nat.lt_of_succ_lt h⟩).length)
      = lineAt ((generateTrack startY slopes).get ⟨i + 1, h⟩)
          (((generateTrack startY slopes).get ⟨i + 1, h⟩).x) := by
  unfold generateTrack at h ⊢
  obtain ⟨hx, hy⟩ := buildTrack_adjacent slopes 0 startY i h
  refine ⟨?_, hx, hy, ?_⟩
  · have hlen : 0 < (buildTrack (0 : ℝ) startY slopes).length :=
      Nat.lt_of_le_of_lt (Nat.zero_le _) h
    cases slopes with
    | nil => simp [buildTrack] at hlen
    | cons s rest => simp [buildTrack]
  · unfold lineAt
    rw [hy]
    ring

/-- The concrete two-slope terrain used in the C6 witness has two segments. -/
theorem c6len : (0 : ℕ) + 1 < (generateTrack (500 : ℝ) [1/10, -1/20]).length := by
  simp [generateTrack, buildTrack]

/-- Witness for C6 at a concrete generated terrain with slopes 1/10 and -1/20. -/
theorem C6_witness :
    (0 : ℕ) + 1 < (generateTrack (500 : ℝ) [1/10, -1/20]).length ∧
    (((generateTrack (500 : ℝ) [1/10, -1/20]).get
        ⟨0, Nat.lt_of_le_of_lt (Nat.zero_le _) c6len⟩).x = 0 ∧
    ((generateTrack (500 : ℝ) [1/10, -1/20]).get ⟨0 + 1, c6len⟩).x
      = ((generateTrack (500 : ℝ) [1/10, -1/20]).get ⟨0, Nat.lt_of_succ_lt c6len⟩).x
        + ((generateTrack (500 : ℝ) [1/10, -1/20]).get ⟨0, Nat.lt_of_succ_lt c6len⟩).length ∧
    ((generateTrack (500 : ℝ) [1/10, -1/20]).get ⟨0 + 1, c6len⟩).y
      = ((generateTrack (500 : ℝ) [1/10, -1/20]).get ⟨0, Nat.lt_of_succ_lt c6len⟩).y
        + ((generateTrack (500 : ℝ) [1/10, -1/20]).get ⟨0, Nat.lt_of_succ_lt c6len⟩).slope
          * ((generateTrack (500 : ℝ) [1/10, -1/20]).get ⟨0, Nat.lt_of_succ_lt c6len⟩).length ∧
    lineAt ((generateTrack (500 : ℝ) [1/10, -1/20]).get ⟨0, Nat.lt_of_succ_lt c6len⟩)
        (((generateTrack (500 : ℝ) [1/10, -1/20]).get ⟨0, Nat.lt_of_succ_lt c6len⟩).x
          + ((generateTrack (500 : ℝ) [1/10, -1/20]).get ⟨0, Nat.lt_of_succ_lt c6len⟩).length)
      = lineAt ((generateTrack (500 : ℝ) [1/10, -1/20]).get ⟨0 + 1, c6len⟩)
          (((generateTrack (500 : ℝ) [1/10, -1/20]).get ⟨0 + 1, c6len⟩).x)) :=
  ⟨c6len, C6_terrain_continuity (500 : ℝ) [1/10, -1/20] 0 c6len⟩

/-- A two-segment track on which the first and last segments have different
    lines, used to separate the two extrapolation behaviours. -/
noncomputable def probeTrack : List Seg := [⟨0, 100, 0, 400⟩, ⟨400, 100, 1/10, 400⟩]

/-- The probe track is not empty. -/
theorem probeTrack_ne_nil : probeTrack ≠ [] := by simp [probeTrack]

/-- No segment of `probeTrack` contains `x = -10`. -/
theorem probeTrack_no_match : ∀ seg ∈ probeTrack, ¬ inSeg (-10 : ℝ) seg := by
  intro seg hseg
  simp only [probeTrack, List.mem_cons, List.mem_singleton, List.not_mem_nil] at hseg
  rcases hseg with h | h | h
  · subst h; simp only [inSeg, not_and]; intro hc; norm_num at hc
  · subst h; simp only [inSeg, not_and]; intro hc; norm_num at hc
  · exact absurd h (by simp)

/-- C2 counterexample: at `x = -10`, before the first segment, the source does
    not use the first segment's line and slope: the scan finds no segment and
    falls through to the LAST segment, giving `100 + (1/10) * (-10 - 400) = 59`
    (the claim's first-segment line gives `100`) and slope `1/10` (the claim
    says `0`). -/
theorem C2_counterexample :
    getTrackY probeTrack (-10) ≠ lineAt (⟨0, 100, 0, 400⟩ : Seg) (-10) ∧
    getTrackSlope probeTrack (-10) ≠ (⟨0, 100, 0, 400⟩ : Seg).slope ∧
    getTrackY probeTrack (-10) = 59 ∧
    getTrackSlope probeTrack (-10) = 1/10 := by
  have hne : probeTrack ≠ [] := by simp [probeTrack]
  obtain ⟨hy, hs⟩ := getTrack_eq_last probeTrack (-10) hne probeTrack_no_match
  have hlast : probeTrack.getLast hne = ⟨400, 100, 1/10, 400⟩ := rfl
  rw [hlast] at hy hs
  have hy59 : getTrackY probeTrack (-10) = 59 := by
    rw [hy]; unfold lineAt; norm_num
  have hs10 : getTrackSlope probeTrack (-10) = 1/10 := by rw [hs]
  refine ⟨?_, ?_, hy59, hs10⟩
  · rw [hy59]; unfold lineAt; norm_num
  · rw [hs10]; norm_num

/-- C2 amended: for every `x` outside the generated segment range the track
    queries never fail and extrapolate with the LAST segment's line equation:
    this matches the claim for `x` beyond the last segment (however large), but
    for `x` before the first segment the source also uses the last segment's
    line equation and slope, not the first segment's. -/
theorem C2_amended_extrapolation (track : List Seg) (x : ℝ) (hne : track ≠ []) :
    ((∀ seg ∈ track, seg.x + seg.length < x) →
      getTrackY track x = lineAt (track.getLast hne) x ∧
      getTrackSlope track x = (track.getLast hne).slope) ∧
    ((∀ seg ∈ track, x < seg.x) →
      getTrackY track x = lineAt (track.getLast hne) x ∧
      getTrackSlope track x = (track.getLast hne).slope) := by
  constructor
  · intro h
    refine getTrack_eq_last track x hne ?_
    intro seg hseg hin
    exact absurd hin.2 (not_le.mpr (h seg hseg))
  · intro h
    refine getTrack_eq_last track x hne ?_
    intro seg hseg hin
    exact absurd hin.1 (not_le.mpr (h seg hseg))

/-- Witness for C2 at a concrete track and a point far beyond the last
    segment: the queries succeed and give the last segment's line and slope. -/
theorem C2_witness :
    (probeTrack ≠ [] ∧ ∀ seg ∈ probeTrack, seg.x + seg.length < (10000 : ℝ)) ∧
    (getTrackY probeTrack 10000 = lineAt (probeTrack.getLast probeTrack_ne_nil) 10000 ∧
     getTrackSlope probeTrack 10000 = (probeTrack.getLast probeTrack_ne_nil).slope) :=
  ⟨⟨probeTrack_ne_nil, by
      intro seg hseg
      simp only [probeTrack, List.mem_cons, List.mem_singleton, List.not_mem_nil] at hseg
      rcases hseg with h | h | h
      · subst h; norm_num
      · subst h; norm_num
      · exact absurd h (by simp)⟩,
    (C2_amended_extrapolation probeTrack 10000 probeTrack_ne_nil).1 (by
      intro seg hseg
      simp only [probeTrack, List.mem_cons, List.mem_singleton, List.not_mem_nil] at hseg
      rcases hseg with h | h | h
      · subst h; norm_num
      · subst h; norm_num
      · exact absurd h (by simp))⟩

/-! Physics constants of the source. -/

/-- wheelRadius = 20. -/
def wheelRadius : ℝ := 20
/-- wheelDistance = 60. -/
def wheelDistance : ℝ := 60
/-- gravity = 1200 px/s^2 (y grows downward). -/
def gravity : ℝ := 1200
/-- engineForce = 1000 px/s^2. -/
def engineForce : ℝ := 1000
/-- brakeForce = -800 px/s^2. -/
def brakeForce : ℝ := -800
/-- friction = 0.98, horizontal damping on ground contact. -/
def friction : ℝ := 0.98
/-- tiltStep = 0.06 rad per frame of held tilt. -/
def tiltStep : ℝ := 0.06

/-- A wheel: centre position, velocity and (unused) mass. -/
@[ext] structure Wheel where
  x : ℝ
  y : ℝ
  vx : ℝ
  vy : ℝ
  m : ℝ

/-- Euclidean distance between two wheel centres, as computed in
    `enforceConstraint` (`Math.sqrt(dx*dx + dy*dy)`). -/
noncomputable def wheelDist (wA wB : Wheel) : ℝ :=
  Real.sqrt ((wB.x - wA.x) * (wB.x - wA.x) + (wB.y - wA.y) * (wB.y - wA.y))

/-- `enforceConstraint`: if the distance deviates from `wheelDistance` by more
    than 0.0001, nudge both wheel positions by half the deviation along the
    connecting direction, in opposite directions.  Velocities are untouched. -/
noncomputable def enforceConstraint (wA wB : Wheel) : Wheel × Wheel :=
  let dx := wB.x - wA.x
  let dy := wB.y - wA.y
  let dist := Real.sqrt (dx * dx + dy * dy)
  let diff := dist - wheelDistance
  if 0.0001 < |diff| then
    let corrX := dx / dist * diff * 0.5
    let corrY := dy / dist * diff * 0.5
    ({ wA with x := wA.x + corrX, y := wA.y + corrY },
     { wB with x := wB.x - corrX, y := wB.y - corrY })
  else (wA, wB)

/-- Helper to evaluate concrete square roots. -/
theorem sqrt_val {a b : ℝ} (hb : 0 ≤ b) (h : a = b * b) : Real.sqrt a = b := by
  rw [h, Real.sqrt_mul_self hb]

/-- Unfolding equation for `wheelDist`, convenient for a targeted rewrite. -/
theorem wheelDist_def (wA wB : Wheel) :
    wheelDist wA wB
      = Real.sqrt ((wB.x - wA.x) * (wB.x - wA.x) + (wB.y - wA.y) * (wB.y - wA.y)) := rfl

/-- When the deviation is within tolerance, `enforceConstraint` is the
    identity. -/
theorem enforceConstraint_skip (wA wB : Wheel)
    (h : ¬ 0.0001 < |wheelDist wA wB - wheelDistance|) :
    enforceConstraint wA wB = (wA, wB) := by
  unfold wheelDist at h
  simp only [enforceConstraint]
  rw [if_neg h]

/-- When the deviation exceeds the tolerance, `enforceConstraint` moves the
    wheels by the correction vector `(dx/dist, dy/dist) * diff * 0.5`. -/
theorem enforceConstraint_act (wA wB : Wheel)
    (h : 0.0001 < |wheelDist wA wB - wheelDistance|) :
    enforceConstraint wA wB =
      ({ wA with
          x := wA.x + (wB.x - wA.x) / wheelDist wA wB * (wheelDist wA wB - wheelDistance) * 0.5,
          y := wA.y + (wB.y - wA.y) / wheelDist wA wB * (wheelDist wA wB - wheelDistance) * 0.5 },
       { wB with
          x := wB.x - (wB.x - wA.x) / wheelDist wA wB * (wheelDist wA wB - wheelDistance) * 0.5,
          y := wB.y - (wB.y - wA.y) / wheelDist wA wB * (wheelDist wA wB - wheelDistance) * 0.5 }) := by
  unfold wheelDist at h ⊢
  simp only [enforceConstraint]
  rw [if_pos h]

/-- After an active correction, the wheel distance is exactly `wheelDistance`
    (in exact real arithmetic), provided the wheels did not coincide. -/
theorem enforceConstraint_dist_eq (wA wB : Wheel) (hd : 0 < wheelDist wA wB)
    (h : 0.0001 < |wheelDist wA wB - wheelDistance|) :
    wheelDist (enforceConstraint wA wB).1 (enforceConstraint wA wB).2 = wheelDistance := by
  rw [enforceConstraint_act wA wB h]
  have hdne : wheelDist wA wB ≠ 0 := ne_of_gt hd
  have hsq : wheelDist wA wB * wheelDist wA wB
      = (wB.x - wA.x) * (wB.x - wA.x) + (wB.y - wA.y) * (wB.y - wA.y) := by
    unfold wheelDist
    exact Real.mul_self_sqrt (add_nonneg (mul_self_nonneg _) (mul_self_nonneg _))
  rw [wheelDist_def]
  dsimp only
  have harg :
      (wB.x - (wB.x - wA.x) / wheelDist wA wB * (wheelDist wA wB - wheelDistance) * 0.5 -
        (wA.x + (wB.x - wA.x) / wheelDist wA wB * (wheelDist wA wB - wheelDistance) * 0.5)) *
      (wB.x - (wB.x - wA.x) / wheelDist wA wB * (wheelDist wA wB - wheelDistance) * 0.5 -
        (wA.x + (wB.x - wA.x) / wheelDist wA wB * (wheelDist wA wB - wheelDistance) * 0.5)) +
      (wB.y - (wB.y - wA.y) / wheelDist wA wB * (wheelDist wA wB - wheelDistance) * 0.5 -
        (wA.y + (wB.y - wA.y) / wheelDist wA wB * (wheelDist wA wB - wheelDistance) * 0.5)) *
      (wB.y - (wB.y - wA.y) / wheelDist wA wB * (wheelDist wA wB - wheelDistance) * 0.5 -
        (wA.y + (wB.y - wA.y) / wheelDist wA wB * (wheelDist wA wB - wheelDistance) * 0.5))
      = wheelDistance * wheelDistance := by
    field_simp
    nlinarith [hsq, sq_nonneg (wheelDist wA wB)]
  rw [harg]
  exact Real.sqrt_mul_self (by unfold wheelDistance; norm_num)

/-- C4: with positive wheel distance `d`, if `|d - wheelDistance|` exceeds the
    tolerance 0.0001 the solver moves each wheel exactly half the error along
    the unit vector between them, in opposite directions, after which the
    distance is exactly `wheelDistance`; within tolerance both wheels are left
    unchanged. -/
theorem C4_constraint_correction (wA wB : Wheel) (hd : 0 < wheelDist wA wB) :
    (0.0001 < |wheelDist wA wB - wheelDistance| →
      enforceConstraint wA wB =
        ({ wA with
            x := wA.x + (wB.x - wA.x) / wheelDist wA wB * (wheelDist wA wB - wheelDistance) * 0.5,
            y := wA.y + (wB.y - wA.y) / wheelDist wA wB * (wheelDist wA wB - wheelDistance) * 0.5 },
         { wB with
            x := wB.x - (wB.x - wA.x) / wheelDist wA wB * (wheelDist wA wB - wheelDistance) * 0.5,
            y := wB.y - (wB.y - wA.y) / wheelDist wA wB * (wheelDist wA wB - wheelDistance) * 0.5 }) ∧
      wheelDist (enforceConstraint wA wB).1 (enforceConstraint wA wB).2 = wheelDistance) ∧
    (|wheelDist wA wB - wheelDistance| ≤ 0.0001 →
      enforceConstraint wA wB = (wA, wB)) := by
  constructor
  · intro h
    exact ⟨enforceConstraint_act wA wB h, enforceConstraint_dist_eq wA wB hd h⟩
  · intro h
    exact enforceConstraint_skip wA wB (not_lt.mpr h)

/-- Witness for C4: wheels at distance 50, outside tolerance; the solver
    restores distance exactly 60. -/
theorem C4_witness :
    (0 < wheelDist ⟨0, 0, 1, 2, 1⟩ ⟨30, 40, 3, 4, 1⟩ ∧
      0.0001 < |wheelDist ⟨0, 0, 1, 2, 1⟩ ⟨30, 40, 3, 4, 1⟩ - wheelDistance|) ∧
    (enforceConstraint ⟨0, 0, 1, 2, 1⟩ ⟨30, 40, 3, 4, 1⟩ =
        ({ (⟨0, 0, 1, 2, 1⟩ : Wheel) with
            x := (⟨0, 0, 1, 2, 1⟩ : Wheel).x + ((⟨30, 40, 3, 4, 1⟩ : Wheel).x - (⟨0, 0, 1, 2, 1⟩ : Wheel).x) / wheelDist ⟨0, 0, 1, 2, 1⟩ ⟨30, 40, 3, 4, 1⟩ * (wheelDist ⟨0, 0, 1, 2, 1⟩ ⟨30, 40, 3, 4, 1⟩ - wheelDistance) * 0.5,
            y := (⟨0, 0, 1, 2, 1⟩ : Wheel).y + ((⟨30, 40, 3, 4, 1⟩ : Wheel).y - (⟨0, 0, 1, 2, 1⟩ : Wheel).y) / wheelDist ⟨0, 0, 1, 2, 1⟩ ⟨30, 40, 3, 4, 1⟩ * (wheelDist ⟨0, 0, 1, 2, 1⟩ ⟨30, 40, 3, 4, 1⟩ - wheelDistance) * 0.5 },
         { (⟨30, 40, 3, 4, 1⟩ : Wheel) with
            x := (⟨30, 40, 3, 4, 1⟩ : Wheel).x - ((⟨30, 40, 3, 4, 1⟩ : Wheel).x - (⟨0, 0, 1, 2, 1⟩ : Wheel).x) / wheelDist ⟨0, 0, 1, 2, 1⟩ ⟨30, 40, 3, 4, 1⟩ * (wheelDist ⟨0, 0, 1, 2, 1⟩ ⟨30, 40, 3, 4, 1⟩ - wheelDistance) * 0.5,
            y := (⟨30, 40, 3, 4, 1⟩ : Wheel).y - ((⟨30, 40, 3, 4, 1⟩ : Wheel).y - (⟨0, 0, 1, 2, 1⟩ : Wheel).y) / wheelDist ⟨0, 0, 1, 2, 1⟩ ⟨30, 40, 3, 4, 1⟩ * (wheelDist ⟨0, 0, 1, 2, 1⟩ ⟨30, 40, 3, 4, 1⟩ - wheelDistance) * 0.5 }) ∧
      wheelDist (enforceConstraint ⟨0, 0, 1, 2, 1⟩ ⟨30, 40, 3, 4, 1⟩).1
          (enforceConstraint ⟨0, 0, 1, 2, 1⟩ ⟨30, 40, 3, 4, 1⟩).2 = wheelDistance) := by
  have hwd : wheelDist ⟨0, 0, 1, 2, 1⟩ ⟨30, 40, 3, 4, 1⟩ = 50 := by
    unfold wheelDist
    exact sqrt_val (by norm_num) (by norm_num)
  have hd : 0 < wheelDist ⟨0, 0, 1, 2, 1⟩ ⟨30, 40, 3, 4, 1⟩ := by rw [hwd]; norm_num
  have h : 0.0001 < |wheelDist ⟨0, 0, 1, 2, 1⟩ ⟨30, 40, 3, 4, 1⟩ - wheelDistance| := by
    rw [hwd]; unfold wheelDistance; norm_num
  exact ⟨⟨hd, h⟩, (C4_constraint_correction _ _ hd).1 h⟩

/-- C9: with positive wheel distance, the solver only moves the two wheels by
    equal and opposite offsets (so the midpoint of the two positions is
    unchanged) and never touches any velocity component or the masses. -/
theorem C9_constraint_frame (wA wB : Wheel) (hd : 0 < wheelDist wA wB) :
    (enforceConstraint wA wB).1.x + (enforceConstraint wA wB).2.x = wA.x + wB.x ∧
    (enforceConstraint wA wB).1.y + (enforceConstraint wA wB).2.y = wA.y + wB.y ∧
    (enforceConstraint wA wB).1.vx = wA.vx ∧
    (enforceConstraint wA wB).1.vy = wA.vy ∧
    (enforceConstraint wA wB).2.vx = wB.vx ∧
    (enforceConstraint wA wB).2.vy = wB.vy ∧
    (enforceConstraint wA wB).1.m = wA.m ∧
    (enforceConstraint wA wB).2.m = wB.m := by
  by_cases h : 0.0001 < |wheelDist wA wB - wheelDistance|
  · rw [enforceConstraint_act wA wB h]
    refine ⟨by ring, by ring, rfl, rfl, rfl, rfl, rfl, rfl⟩
  · rw [enforceConstraint_skip wA wB h]
    exact ⟨rfl, rfl, rfl, rfl, rfl, rfl, rfl, rfl⟩

/-- Witness for C9 at wheels at distance 50. -/
theorem C9_witness :
    0 < wheelDist ⟨0, 0, 1, 2, 1⟩ ⟨30, 40, 3, 4, 1⟩ ∧
    ((enforceConstraint ⟨0, 0, 1, 2, 1⟩ ⟨30, 40, 3, 4, 1⟩).1.x +
        (enforceConstraint ⟨0, 0, 1, 2, 1⟩ ⟨30, 40, 3, 4, 1⟩).2.x = 0 + 30 ∧
      (enforceConstraint ⟨0, 0, 1, 2, 1⟩ ⟨30, 40, 3, 4, 1⟩).1.vx = 1) := by
  have hwd : wheelDist ⟨0, 0, 1, 2, 1⟩ ⟨30, 40, 3, 4, 1⟩ = 50 := by
    unfold wheelDist
    exact sqrt_val (by norm_num) (by norm_num)
  have hd : 0 < wheelDist ⟨0, 0, 1, 2, 1⟩ ⟨30, 40, 3, 4, 1⟩ := by rw [hwd]; norm_num
  obtain ⟨h1, h2, h3, h4, h5, h6, h7, h8⟩ := C9_constraint_frame ⟨0, 0, 1, 2, 1⟩ ⟨30, 40, 3, 4, 1⟩ hd
  exact ⟨hd, h1, h3⟩

/-- C1 amended, constraint-phase part: right after `enforceConstraint`, the
    wheel distance is within the tolerance 0.0001 of `wheelDistance` (exactly
    `wheelDistance` whenever a correction was applied), provided the wheels do
    not coincide. -/
theorem C1_amended_constraint_phase (wA wB : Wheel) (hd : 0 < wheelDist wA wB) :
    |wheelDist (enforceConstraint wA wB).1 (enforceConstraint wA wB).2 - wheelDistance| ≤ 0.0001 := by
  by_cases h : 0.0001 < |wheelDist wA wB - wheelDistance|
  · rw [enforceConstraint_dist_eq wA wB hd h]
    norm_num
  · rw [enforceConstraint_skip wA wB h]
    exact not_lt.mp h

/-- Witness for the amended C1 at wheels at distance 50. -/
theorem C1_amended_witness :
    0 < wheelDist ⟨0, 0, 1, 2, 1⟩ ⟨30, 40, 3, 4, 1⟩ ∧
    |wheelDist (enforceConstraint ⟨0, 0, 1, 2, 1⟩ ⟨30, 40, 3, 4, 1⟩).1
        (enforceConstraint ⟨0, 0, 1, 2, 1⟩ ⟨30, 40, 3, 4, 1⟩).2 - wheelDistance| ≤ 0.0001 := by
  have hwd : wheelDist ⟨0, 0, 1, 2, 1⟩ ⟨30, 40, 3, 4, 1⟩ = 50 := by
    unfold wheelDist
    exact sqrt_val (by norm_num) (by norm_num)
  have hd : 0 < wheelDist ⟨0, 0, 1, 2, 1⟩ ⟨30, 40, 3, 4, 1⟩ := by rw [hwd]; norm_num
  exact ⟨hd, C1_amended_constraint_phase ⟨0, 0, 1, 2, 1⟩ ⟨30, 40, 3, 4, 1⟩ hd⟩

/-- JS `Math.atan2(y, x)` on real inputs (signed zeros do not exist on `ℝ`;
    the game only reaches the `x > 0` and `(0, 0)` cases). -/
noncomputable def atan2 (y x : ℝ) : ℝ :=
  if 0 < x then Real.arctan (y / x)
  else if x < 0 then
    (if 0 ≤ y then Real.arctan (y / x) + Real.pi else Real.arctan (y / x) - Real.pi)
  else if 0 < y then Real.pi / 2
  else if y < 0 then -(Real.pi / 2)
  else 0

/-- `handleCollision`: when the wheel's lower edge is below the track
    (`w.y + wheelRadius > trackY`), clamp it onto the track, zero a positive
    (downward) `vy`, apply rolling friction to `vx`, and realign the velocity
    direction 80% towards its current heading, 20% towards the slope
    direction, keeping the speed; otherwise leave the wheel unchanged. -/
noncomputable def handleCollision (track : List Seg) (w : Wheel) : Wheel :=
  let trackY := getTrackY track w.x
  if trackY < w.y + wheelRadius then
    let yNew := trackY - wheelRadius
    let vyNew := if 0 < w.vy then 0 else w.vy
    let vxNew := w.vx * friction
    let slope := getTrackSlope track w.x
    let normalAngle := Real.arctan slope
    let v := Real.sqrt (vxNew * vxNew + vyNew * vyNew)
    let dir := atan2 vyNew vxNew
    let aligned := dir * 0.8 + normalAngle * 0.2
    { w with y := yNew, vx := v * Real.cos aligned, vy := v * Real.sin aligned }
  else w

/-- Modelled from the claim/spec wording for C3: on penetration, place the
    wheel exactly tangent (`y = trackY - wheelRadius`), zero `vy` iff it is
    positive, multiply `vx` by the friction coefficient, then replace
    `(vx, vy)` by `(v cos a, v sin a)` where `v` is the velocity magnitude
    after those updates and `a = 0.8 * atan2(vy, vx) + 0.2 * atan(slope)`;
    above the surface the wheel is unchanged. -/
noncomputable def specCollision (track : List Seg) (w : Wheel) : Wheel :=
  if w.y + wheelRadius ≤ getTrackY track w.x then w
  else
    let vyNew := if 0 < w.vy then 0 else w.vy
    let vxNew := w.vx * friction
    let v := Real.sqrt (vxNew ^ 2 + vyNew ^ 2)
    let a := 0.8 * atan2 vyNew vxNew + 0.2 * Real.arctan (getTrackSlope track w.x)
    { w with
        y := getTrackY track w.x - wheelRadius,
        vx := v * Real.cos a,
        vy := v * Real.sin a }

/-- C3: `handleCollision` acts exactly when `wheel.y + wheelRadius > trackY`
    and then performs precisely the spec's sequence (tangent clamp, conditional
    `vy` zeroing, friction, heading blend with preserved magnitude); above the
    surface the wheel state is entirely unchanged. -/
theorem sqrt_mul_cos_congr {p q a b : ℝ} (hpq : p = q) (hab : a = b) :
    Real.sqrt p * Real.cos a = Real.sqrt q * Real.cos b := by rw [hpq, hab]

theorem sqrt_mul_sin_congr {p q a b : ℝ} (hpq : p = q) (hab : a = b) :
    Real.sqrt p * Real.sin a = Real.sqrt q * Real.sin b := by rw [hpq, hab]

theorem C3_collision_characterization (track : List Seg) (w : Wheel) :
    handleCollision track w = specCollision track w := by
  unfold handleCollision specCollision
  by_cases hpen : getTrackY track w.x < w.y + wheelRadius
  · rw [if_pos hpen, if_neg (not_le.mpr hpen)]
    apply Wheel.ext <;> dsimp only
    · exact sqrt_mul_cos_congr (by ring) (by ring)
    · exact sqrt_mul_sin_congr (by ring) (by ring)
  · rw [if_neg hpen, if_pos (not_lt.mp hpen)]

/-- C10: `handleCollision` never changes the wheel's horizontal position (nor
    its mass); only `y`, `vx`, `vy` may change. -/
theorem C10_collision_frame (track : List Seg) (w : Wheel) :
    (handleCollision track w).x = w.x ∧ (handleCollision track w).m = w.m := by
  unfold handleCollision
  by_cases hpen : getTrackY track w.x < w.y + wheelRadius
  · rw [if_pos hpen]
    exact ⟨rfl, rfl⟩
  · rw [if_neg hpen]
    exact ⟨rfl, rfl⟩

/-- One wheel of `rotateBike`: rotate the offset from the midpoint by the
    angle with the standard 2D rotation matrix and re-add the midpoint. -/
noncomputable def rotateWheel (cx cy angle : ℝ) (w : Wheel) : Wheel :=
  let dx := w.x - cx
  let dy := w.y - cy
  let c := Real.cos angle
  let s := Real.sin angle
  { w with x := cx + (dx * c - dy * s), y := cy + (dx * s + dy * c) }

/-- `rotateBike`: rotate both wheels about the midpoint of the two wheels. -/
noncomputable def rotateBike (angle : ℝ) (wA wB : Wheel) : Wheel × Wheel :=
  let cx := (wA.x + wB.x) / 2
  let cy := (wA.y + wB.y) / 2
  (rotateWheel cx cy angle wA, rotateWheel cx cy angle wB)

/-- C7: `rotateBike` keeps the midpoint of the two wheel positions unchanged
    and preserves the distance between the wheels (in exact real
    arithmetic), for every angle and configuration. -/
theorem C7_rotate_isometry (angle : ℝ) (wA wB : Wheel) :
    (rotateBike angle wA wB).1.x + (rotateBike angle wA wB).2.x = wA.x + wB.x ∧
    (rotateBike angle wA wB).1.y + (rotateBike angle wA wB).2.y = wA.y + wB.y ∧
    wheelDist (rotateBike angle wA wB).1 (rotateBike angle wA wB).2 = wheelDist wA wB := by
  have hsc := Real.sin_sq_add_cos_sq angle
  refine ⟨?_, ?_, ?_⟩
  · unfold rotateBike rotateWheel
    dsimp only
    ring
  · unfold rotateBike rotateWheel
    dsimp only
    ring
  · rw [wheelDist_def, wheelDist_def]
    unfold rotateBike rotateWheel
    dsimp only
    congr 1
    linear_combination
      ((wB.x - wA.x) * (wB.x - wA.x) + (wB.y - wA.y) * (wB.y - wA.y)) * hsc

/-- The whole mutable state of the simulation: the generated track, the two
    wheels, the four input flags and the timestamp of the previous frame
    (`null` before the first frame). -/
structure SimState where
  track : List Seg
  wheelA : Wheel
  wheelB : Wheel
  accelerate : Bool
  brake : Bool
  tiltLeft : Bool
  tiltRight : Bool
  lastTime : Option ℝ

/-- The `if (!lastTime) lastTime = time` line: the stored timestamp is used
    unless it is falsy (`null`, or the timestamp 0). -/
noncomputable def effectiveLastTime (s : SimState) (time : ℝ) : ℝ :=
  match s.lastTime with
  | none => time
  | some t0 => if t0 = 0 then time else t0

/-- `dt` after conversion to seconds and the `Math.min(dt, 0.033)` cap. -/
noncomputable def clampedDt (s : SimState) (time : ℝ) : ℝ :=
  min ((time - effectiveLastTime s time) / 1000) 0.033

/-- Gravity: `vy += gravity * dt` (applied to each wheel). -/
noncomputable def gravityPhase (dt : ℝ) (w : Wheel) : Wheel :=
  { w with vy := w.vy + gravity * dt }

/-- Control forces: `vx += engineForce * dt` while accelerating and
    `vx += brakeForce * dt` while braking (additive, applied to each wheel). -/
noncomputable def controlPhase (acc brk : Bool) (dt : ℝ) (w : Wheel) : Wheel :=
  let w1 := if acc then { w with vx := w.vx + engineForce * dt } else w
  if brk then { w1 with vx := w1.vx + brakeForce * dt } else w1

/-- Forward-Euler integration: `x += vx * dt`, `y += vy * dt`. -/
noncomputable def integratePhase (dt : ℝ) (w : Wheel) : Wheel :=
  { w with x := w.x + w.vx * dt, y := w.y + w.vy * dt }

/-- One invocation of `update(time)` without the drawing and scheduling parts:
    compute the clamped `dt`, apply gravity and control forces to both wheels,
    integrate positions, enforce the wheel-distance constraint, resolve
    collisions for each wheel, apply the requested tilt rotations, and store
    `lastTime = time`. -/
noncomputable def update (s : SimState) (time : ℝ) : SimState :=
  let cdt := clampedDt s time
  let a3 := integratePhase cdt (controlPhase s.accelerate s.brake cdt (gravityPhase cdt s.wheelA))
  let b3 := integratePhase cdt (controlPhase s.accelerate s.brake cdt (gravityPhase cdt s.wheelB))
  let p4 := enforceConstraint a3 b3
  let a5 := handleCollision s.track p4.1
  let b5 := handleCollision s.track p4.2
  let p6 := if s.tiltLeft then rotateBike (-tiltStep) a5 b5 else (a5, b5)
  let p7 := if s.tiltRight then rotateBike tiltStep p6.1 p6.2 else p6
  { s with wheelA := p7.1, wheelB := p7.2, lastTime := some time }

/-- Apply a wheel transformation to both wheels of a pair. -/
noncomputable def onBoth (f : Wheel → Wheel) (p : Wheel × Wheel) : Wheel × Wheel :=
  (f p.1, f p.2)

/-- Modelled from the spec (§2, §4.5): one step is the fixed-order pipeline
    gravity → control forces → integration → constraint → collision → tilt,
    every phase consuming the same single elapsed-time value `dt`. -/
noncomputable def specStep (dt : ℝ) (s : SimState) : SimState :=
  let p1 := onBoth (gravityPhase dt) (s.wheelA, s.wheelB)
  let p2 := onBoth (controlPhase s.accelerate s.brake dt) p1
  let p3 := onBoth (integratePhase dt) p2
  let p4 := enforceConstraint p3.1 p3.2
  let p5 := onBoth (handleCollision s.track) p4
  let p6 := if s.tiltLeft then rotateBike (-tiltStep) p5.1 p5.2 else p5
  let p7 := if s.tiltRight then rotateBike tiltStep p6.1 p6.2 else p6
  { s with wheelA := p7.1, wheelB := p7.2 }

/-- C5: every invocation of `update` consumes one elapsed-time value, clamped
    to at most 0.033 s, and equals the spec's fixed-order pipeline (gravity,
    control forces, forward-Euler integration, constraint, collision, tilt)
    run with that single clamped `dt`. -/
theorem C5_step_order (s : SimState) (time : ℝ) :
    update s time
      = specStep (min ((time - effectiveLastTime s time) / 1000) 0.033)
          { s with lastTime := some time } ∧
    clampedDt s time ≤ 0.033 := by
  constructor
  · rfl
  · exact min_le_right _ _

/-- Evaluation of the track queries on a one-segment track whose span
    contains `x`. -/
theorem getTrack_single (seg : Seg) (x : ℝ) (h : inSeg x seg) :
    getTrackY [seg] x = lineAt seg x ∧ getTrackSlope [seg] x = seg.slope := by
  have hfind : List.find? (fun s => decide (inSeg x s)) [seg] = some seg := by
    simp [h]
  constructor
  · unfold getTrackY
    rw [hfind]
  · unfold getTrackSlope
    rw [hfind]

/-- Evaluation of `handleCollision` in the penetration branch, with the track
    queries already evaluated. -/
theorem handleCollision_hit (track : List Seg) (w : Wheel) (tY sl : ℝ)
    (hty : getTrackY track w.x = tY) (hsl : getTrackSlope track w.x = sl)
    (hpen : tY < w.y + wheelRadius) :
    handleCollision track w =
      { w with
          y := tY - wheelRadius,
          vx := Real.sqrt ((w.vx * friction) * (w.vx * friction)
                  + (if 0 < w.vy then 0 else w.vy) * (if 0 < w.vy then 0 else w.vy))
                * Real.cos (atan2 (if 0 < w.vy then 0 else w.vy) (w.vx * friction) * 0.8
                    + Real.arctan sl * 0.2),
          vy := Real.sqrt ((w.vx * friction) * (w.vx * friction)
                  + (if 0 < w.vy then 0 else w.vy) * (if 0 < w.vy then 0 else w.vy))
                * Real.sin (atan2 (if 0 < w.vy then 0 else w.vy) (w.vx * friction) * 0.8
                    + Real.arctan sl * 0.2) } := by
  simp only [handleCollision]
  rw [hty, hsl, if_pos hpen]

/-- Evaluation of `handleCollision` in the no-contact branch. -/
theorem handleCollision_miss (track : List Seg) (w : Wheel) (tY : ℝ)
    (hty : getTrackY track w.x = tY) (hpen : ¬ tY < w.y + wheelRadius) :
    handleCollision track w = w := by
  simp only [handleCollision]
  rw [hty, if_neg hpen]

/-- The one-segment track of the C1 counterexample: slope 1/10 (inside the
    generator's slope range), starting at height 490. -/
noncomputable def c1Track : List Seg := [⟨0, 490, 0.1, 100000⟩]

/-- The C1 counterexample state: both wheels 60 apart at the same height,
    above the terrain, falling straight down at 400.  After the clamped frame
    the left wheel reaches the ground (which is lower on the left) while the
    right wheel is still airborne, so only one wheel gets clamped. -/
noncomputable def c1State : SimState :=
  ⟨c1Track, ⟨100, 470, 0, 400, 1⟩, ⟨160, 470, 0, 400, 1⟩, false, false, false, false, some 5⟩

/-- The C1 counterexample step is invoked after a 35 ms gap, so `dt` is
    clamped to the cap 0.033. -/
theorem c1_clampedDt : clampedDt c1State 40 = 0.033 := by
  have h1 : effectiveLastTime c1State 40 = 5 := by
    unfold effectiveLastTime c1State
    norm_num
  unfold clampedDt
  rw [h1, min_eq_right (by norm_num)]

/-- Full evaluation of the C1 counterexample step: the constraint phase leaves
    the wheels exactly 60 apart, but the collision clamp then lands the left
    wheel on the terrain while the right wheel keeps falling. -/
theorem c1_update : update c1State 40 =
    { c1State with wheelA := ⟨100, 480, 0, 0, 1⟩,
                   wheelB := ⟨160, 484.5068, 0, 439.6, 1⟩,
                   lastTime := some 40 } := by
  have hA3 : integratePhase 0.033 (controlPhase false false 0.033
      (gravityPhase 0.033 (⟨100, 470, 0, 400, 1⟩ : Wheel)))
      = (⟨100, 484.5068, 0, 439.6, 1⟩ : Wheel) := by
    norm_num [integratePhase, controlPhase, gravityPhase, gravity, Wheel.mk.injEq]
  have hB3 : integratePhase 0.033 (controlPhase false false 0.033
      (gravityPhase 0.033 (⟨160, 470, 0, 400, 1⟩ : Wheel)))
      = (⟨160, 484.5068, 0, 439.6, 1⟩ : Wheel) := by
    norm_num [integratePhase, controlPhase, gravityPhase, gravity, Wheel.mk.injEq]
  have hcon : enforceConstraint ⟨100, 484.5068, 0, 439.6, 1⟩ ⟨160, 484.5068, 0, 439.6, 1⟩
      = (⟨100, 484.5068, 0, 439.6, 1⟩, ⟨160, 484.5068, 0, 439.6, 1⟩) := by
    apply enforceConstraint_skip
    have hd : wheelDist ⟨100, 484.5068, 0, 439.6, 1⟩ ⟨160, 484.5068, 0, 439.6, 1⟩ = 60 := by
      unfold wheelDist
      exact sqrt_val (by norm_num) (by norm_num)
    rw [hd]
    unfold wheelDistance
    norm_num
  have htyA : getTrackY c1Track (100 : ℝ) = 500 := by
    have h := (getTrack_single ⟨0, 490, 0.1, 100000⟩ 100 (by constructor <;> norm_num)).1
    unfold c1Track
    rw [h]
    unfold lineAt
    norm_num
  have hslA : getTrackSlope c1Track (100 : ℝ) = 0.1 := by
    have h := (getTrack_single ⟨0, 490, 0.1, 100000⟩ 100 (by constructor <;> norm_num)).2
    unfold c1Track
    rw [h]
  have htyB : getTrackY c1Track (160 : ℝ) = 506 := by
    have h := (getTrack_single ⟨0, 490, 0.1, 100000⟩ 160 (by constructor <;> norm_num)).1
    unfold c1Track
    rw [h]
    unfold lineAt
    norm_num
  have hcolA : handleCollision c1Track ⟨100, 484.5068, 0, 439.6, 1⟩ = ⟨100, 480, 0, 0, 1⟩ := by
    rw [handleCollision_hit c1Track ⟨100, 484.5068, 0, 439.6, 1⟩ 500 0.1 htyA hslA
      (by unfold wheelRadius; norm_num)]
    have hif : (if (0 : ℝ) < 439.6 then (0 : ℝ) else 439.6) = 0 := by norm_num
    norm_num [hif, wheelRadius, Wheel.mk.injEq, Real.sqrt_zero]
  have hcolB : handleCollision c1Track ⟨160, 484.5068, 0, 439.6, 1⟩
      = ⟨160, 484.5068, 0, 439.6, 1⟩ := by
    exact handleCollision_miss c1Track ⟨160, 484.5068, 0, 439.6, 1⟩ 506 htyB
      (by unfold wheelRadius; norm_num)
  simp only [update]
  rw [c1_clampedDt]
  simp only [c1State]
  rw [hA3, hB3, hcon]
  dsimp only
  rw [hcolA, hcolB]
  simp

/-- C1 counterexample: a falling frame, exactly 60 apart through the
    constraint phase, ends a completed step with one wheel clamped to the
    terrain and the other still airborne, at distance
    `sqrt 3620.31124624 > 60.0001`.  The claimed end-of-step invariant is
    false, because collision resolution runs after constraint enforcement. -/
theorem C1_counterexample :
    ¬ (|wheelDist (update c1State 40).wheelA (update c1State 40).wheelB - wheelDistance|
        < 0.0001) := by
  rw [c1_update]
  have hwd : wheelDist ⟨100, 480, 0, 0, 1⟩ ⟨160, 484.5068, 0, 439.6, 1⟩
      = Real.sqrt 3620.31124624 := by
    unfold wheelDist
    norm_num
  have hge : (60.0001 : ℝ) ≤ Real.sqrt 3620.31124624 := by
    rw [Real.le_sqrt (by norm_num) (by norm_num)]
    norm_num
  dsimp only
  rw [hwd]
  unfold wheelDistance
  intro hcontra
  rw [abs_lt] at hcontra
  linarith [hcontra.2]

/-- The constraint solver never changes velocities (either branch). -/
theorem enforceConstraint_vel (wA wB : Wheel) :
    (enforceConstraint wA wB).1.vx = wA.vx ∧ (enforceConstraint wA wB).1.vy = wA.vy ∧
    (enforceConstraint wA wB).2.vx = wB.vx ∧ (enforceConstraint wA wB).2.vy = wB.vy := by
  by_cases h : 0.0001 < |wheelDist wA wB - wheelDistance|
  · rw [enforceConstraint_act wA wB h]
    exact ⟨rfl, rfl, rfl, rfl⟩
  · rw [enforceConstraint_skip wA wB h]
    exact ⟨rfl, rfl, rfl, rfl⟩

/-- The first tilt `if` of `update` never changes the second wheel's
    velocity. -/
theorem tilt_snd_vel (c : Bool) (θ : ℝ) (a b : Wheel) :
    (if c then rotateBike θ a b else (a, b)).2.vx = b.vx ∧
    (if c then rotateBike θ a b else (a, b)).2.vy = b.vy := by
  cases c
  · exact ⟨rfl, rfl⟩
  · exact ⟨rfl, rfl⟩

/-- The second tilt `if` of `update` never changes the second wheel's
    velocity. -/
theorem tilt_snd_vel_pair (c : Bool) (θ : ℝ) (p : Wheel × Wheel) :
    (if c then rotateBike θ p.1 p.2 else p).2.vx = p.2.vx ∧
    (if c then rotateBike θ p.1 p.2 else p).2.vy = p.2.vy := by
  cases c
  · exact ⟨rfl, rfl⟩
  · exact ⟨rfl, rfl⟩

/-- With no input held, the control phase is the identity. -/
theorem controlPhase_none (dt : ℝ) (w : Wheel) : controlPhase false false dt w = w := rfl

/-- A collision entered with non-negative (non-upward) vertical velocity never
    increases `|vx|`: the `vy` used by the realignment is zero, so the speed
    collapses to `0.98 * |vx|` and the cosine factor only shrinks it. -/
theorem handleCollision_absvx_le (track : List Seg) (w : Wheel) (hvy : 0 ≤ w.vy) :
    |(handleCollision track w).vx| ≤ |w.vx| := by
  by_cases hpen : getTrackY track w.x < w.y + wheelRadius
  · rw [handleCollision_hit track w (getTrackY track w.x) (getTrackSlope track w.x) rfl rfl hpen]
    dsimp only
    have hvy0 : (if 0 < w.vy then (0 : ℝ) else w.vy) = 0 := by
      by_cases h : 0 < w.vy
      · rw [if_pos h]
      · rw [if_neg h]
        exact le_antisymm (not_lt.mp h) hvy
    rw [hvy0]
    have hs : Real.sqrt (w.vx * friction * (w.vx * friction) + 0 * 0) = |w.vx * friction| := by
      rw [show w.vx * friction * (w.vx * friction) + 0 * 0
          = (w.vx * friction) * (w.vx * friction) from by ring]
      exact Real.sqrt_mul_self_eq_abs _
    rw [hs]
    rw [abs_mul, abs_abs]
    have hcos : |Real.cos (atan2 0 (w.vx * friction) * 0.8
        + Real.arctan (getTrackSlope track w.x) * 0.2)| ≤ 1 := Real.abs_cos_le_one _
    have hfr : |w.vx * friction| = |w.vx| * friction := by
      rw [abs_mul]
      congr 1
      unfold friction
      rw [abs_of_nonneg]
      norm_num
    calc |w.vx * friction| * |Real.cos _| ≤ |w.vx * friction| * 1 := by
          exact mul_le_mul_of_nonneg_left hcos (abs_nonneg _)
      _ = |w.vx| * friction := by rw [mul_one, hfr]
      _ ≤ |w.vx| * 1 := by
          refine mul_le_mul_of_nonneg_left ?_ (abs_nonneg _)
          unfold friction
          norm_num
      _ = |w.vx| := mul_one _
  · rw [handleCollision_miss track w (getTrackY track w.x) rfl hpen]

/-- C8 amended: across one step with no accelerate/brake input, a
    non-negative timestamp gap, and the wheel not moving upward at the start
    of the step, `|vx|` of the wheel is non-increasing — so the claimed
    friction damping holds for every step in which the wheel enters the
    collision check moving downward or level.  (The unrestricted claim is
    refuted by `C8_counterexample`: a wheel that enters a collision moving
    upward, e.g. after a tilt pressed it into the ground, can have the
    slope realignment convert vertical speed into horizontal speed faster
    than friction drains it.) -/
theorem C8_amended_friction_damping (s : SimState) (time t0 : ℝ)
    (hacc : s.accelerate = false) (hbrk : s.brake = false)
    (hlast : s.lastTime = some t0) (ht0 : t0 ≠ 0) (hle : t0 ≤ time)
    (hvy : 0 ≤ s.wheelB.vy) :
    |(update s time).wheelB.vx| ≤ |s.wheelB.vx| := by
  have hdt : 0 ≤ clampedDt s time := by
    unfold clampedDt effectiveLastTime
    rw [hlast]
    dsimp only
    rw [if_neg ht0]
    exact le_min (div_nonneg (by linarith) (by norm_num)) (by norm_num)
  simp only [update, hacc, hbrk]
  rw [(tilt_snd_vel_pair s.tiltRight tiltStep _).1,
      (tilt_snd_vel s.tiltLeft (-tiltStep) _ _).1]
  have hPvy : 0 ≤ (enforceConstraint
      (integratePhase (clampedDt s time) (controlPhase false false (clampedDt s time)
        (gravityPhase (clampedDt s time) s.wheelA)))
      (integratePhase (clampedDt s time) (controlPhase false false (clampedDt s time)
        (gravityPhase (clampedDt s time) s.wheelB)))).2.vy := by
    rw [(enforceConstraint_vel _ _).2.2.2, controlPhase_none]
    show 0 ≤ (gravityPhase (clampedDt s time) s.wheelB).vy
    unfold gravityPhase gravity
    dsimp only
    have : 0 ≤ 1200 * clampedDt s time := by positivity
    linarith
  refine le_trans (handleCollision_absvx_le s.track _ hPvy) ?_
  rw [(enforceConstraint_vel _ _).2.2.1, controlPhase_none]
  exact le_rfl

/-- Witness for the amended C8: a resting wheel on flat ground keeps
    `|vx| = 0` through a step. -/
theorem C8_amended_witness :
    ((⟨c1Track, ⟨100, 480, 0, 0, 1⟩, ⟨160, 486, 0, 0, 1⟩, false, false, false, false,
        some 5⟩ : SimState).accelerate = false ∧
     (⟨c1Track, ⟨100, 480, 0, 0, 1⟩, ⟨160, 486, 0, 0, 1⟩, false, false, false, false,
        some 5⟩ : SimState).brake = false ∧
     (⟨c1Track, ⟨100, 480, 0, 0, 1⟩, ⟨160, 486, 0, 0, 1⟩, false, false, false, false,
        some 5⟩ : SimState).lastTime = some 5 ∧ (5 : ℝ) ≠ 0 ∧ (5 : ℝ) ≤ 6 ∧
     0 ≤ (⟨c1Track, ⟨100, 480, 0, 0, 1⟩, ⟨160, 486, 0, 0, 1⟩, false, false, false, false,
        some 5⟩ : SimState).wheelB.vy) ∧
    |(update ⟨c1Track, ⟨100, 480, 0, 0, 1⟩, ⟨160, 486, 0, 0, 1⟩, false, false, false, false,
        some 5⟩ 6).wheelB.vx| ≤
      |(⟨c1Track, ⟨100, 480, 0, 0, 1⟩, ⟨160, 486, 0, 0, 1⟩, false, false, false, false,
        some 5⟩ : SimState).wheelB.vx| :=
  ⟨⟨rfl, rfl, rfl, by norm_num, by norm_num, by norm_num⟩,
    C8_amended_friction_damping _ 6 5 rfl rfl rfl (by norm_num) (by norm_num) (by norm_num)⟩

/-- `atan2` on a positive x argument is plain `arctan` of the ratio. -/
theorem atan2_pos_x (y x : ℝ) (hx : 0 < x) : atan2 y x = Real.arctan (y / x) := by
  unfold atan2
  rw [if_pos hx]

/-- The wheel-B state at the entry of its collision check inside
    `update s time` (after gravity, control forces, integration and the
    constraint). -/
noncomputable def preCollisionB (s : SimState) (time : ℝ) : Wheel :=
  (enforceConstraint
    (integratePhase (clampedDt s time)
      (controlPhase s.accelerate s.brake (clampedDt s time)
        (gravityPhase (clampedDt s time) s.wheelA)))
    (integratePhase (clampedDt s time)
      (controlPhase s.accelerate s.brake (clampedDt s time)
        (gravityPhase (clampedDt s time) s.wheelB)))).2

/-- The collision branch for wheel B is taken during the step `update s time`:
    the wheel reaching the collision check penetrates the terrain. -/
def collisionTakenB (s : SimState) (time : ℝ) : Prop :=
  getTrackY s.track (preCollisionB s time).x < (preCollisionB s time).y + wheelRadius

/-- The flat track of the C8 counterexample. -/
noncomputable def c8Track : List Seg := [⟨0, 500, 0, 100000⟩]

/-- The C8 counterexample start state: both wheels deep under the flat ground
    (y = 1000 against ground level 500), moving right at 100 and upward at
    -99.2, tilt-right held, no accelerate/brake. -/
noncomputable def c8State : SimState :=
  ⟨c8Track, ⟨100, 1000, 100, -99.2, 1⟩, ⟨160, 1000, 100, -99.2, 1⟩,
   false, false, false, true, some 5⟩

/-- Horizontal speed of both wheels after the first counterexample step. -/
noncomputable def c8Vx1 : ℝ := Real.sqrt 19208 * Real.cos (Real.pi / 5)

/-- Vertical speed of both wheels after the first counterexample step. -/
noncomputable def c8Vy1 : ℝ := -(Real.sqrt 19208 * Real.sin (Real.pi / 5))

/-- The state after the first counterexample step: both wheels were clamped to
    the ground, their velocity was realigned through the exact angle
    `-pi/5 = 0.8 * atan2(-98, 98)`, and the tilt rotated the frame so that
    wheel B sank `30 sin 0.06` below ground level. -/
noncomputable def c8S1 : SimState :=
  ⟨c8Track,
   ⟨130.1 - 30 * Real.cos 0.06, 480 - 30 * Real.sin 0.06, c8Vx1, c8Vy1, 1⟩,
   ⟨130.1 + 30 * Real.cos 0.06, 480 + 30 * Real.sin 0.06, c8Vx1, c8Vy1, 1⟩,
   false, false, false, true, some 6⟩

/-- The first counterexample step runs with dt = 0.001. -/
theorem c8_dt1 : clampedDt c8State 6 = 0.001 := by
  have h1 : effectiveLastTime c8State 6 = 5 := by
    unfold effectiveLastTime c8State
    norm_num
  unfold clampedDt
  rw [h1, min_eq_left (by norm_num)]
  norm_num

/-- Wheel A of the counterexample after gravity, control and integration of
    the first step. -/
theorem c8_A3 : integratePhase 0.001 (controlPhase false false 0.001
    (gravityPhase 0.001 (⟨100, 1000, 100, -99.2, 1⟩ : Wheel)))
    = (⟨100.1, 999.902, 100, -98, 1⟩ : Wheel) := by
  norm_num [integratePhase, controlPhase, gravityPhase, gravity, Wheel.mk.injEq]

/-- Wheel B of the counterexample after gravity, control and integration of
    the first step. -/
theorem c8_B3 : integratePhase 0.001 (controlPhase false false 0.001
    (gravityPhase 0.001 (⟨160, 1000, 100, -99.2, 1⟩ : Wheel)))
    = (⟨160.1, 999.902, 100, -98, 1⟩ : Wheel) := by
  norm_num [integratePhase, controlPhase, gravityPhase, gravity, Wheel.mk.injEq]

/-- In the first counterexample step the wheels are exactly 60 apart, so the
    constraint solver does nothing. -/
theorem c8_con1 : enforceConstraint ⟨100.1, 999.902, 100, -98, 1⟩ ⟨160.1, 999.902, 100, -98, 1⟩
    = (⟨100.1, 999.902, 100, -98, 1⟩, ⟨160.1, 999.902, 100, -98, 1⟩) := by
  apply enforceConstraint_skip
  have hd : wheelDist ⟨100.1, 999.902, 100, -98, 1⟩ ⟨160.1, 999.902, 100, -98, 1⟩ = 60 := by
    unfold wheelDist
    exact sqrt_val (by norm_num) (by norm_num)
  rw [hd]
  unfold wheelDistance
  norm_num

/-- Track height query under wheel A in the first counterexample step. -/
theorem c8_tyA1 : getTrackY c8Track (100.1 : ℝ) = 500 := by
  have h := (getTrack_single ⟨0, 500, 0, 100000⟩ 100.1 (by constructor <;> norm_num)).1
  unfold c8Track
  rw [h]
  unfold lineAt
  norm_num

/-- Track slope query under wheel A in the first counterexample step. -/
theorem c8_slA1 : getTrackSlope c8Track (100.1 : ℝ) = 0 := by
  have h := (getTrack_single ⟨0, 500, 0, 100000⟩ 100.1 (by constructor <;> norm_num)).2
  unfold c8Track
  rw [h]

/-- Track height query under wheel B in the first counterexample step. -/
theorem c8_tyB1 : getTrackY c8Track (160.1 : ℝ) = 500 := by
  have h := (getTrack_single ⟨0, 500, 0, 100000⟩ 160.1 (by constructor <;> norm_num)).1
  unfold c8Track
  rw [h]
  unfold lineAt
  norm_num

/-- Track slope query under wheel B in the first counterexample step. -/
theorem c8_slB1 : getTrackSlope c8Track (160.1 : ℝ) = 0 := by
  have h := (getTrack_single ⟨0, 500, 0, 100000⟩ 160.1 (by constructor <;> norm_num)).2
  unfold c8Track
  rw [h]

/-- Collision of wheel A in the first counterexample step: the wheel is
    clamped to the ground and its velocity (98, -98) is realigned through
    `0.8 * atan2(-98, 98) = -pi/5` at unchanged magnitude `sqrt 19208`. -/
theorem c8_colA1 : handleCollision c8Track ⟨100.1, 999.902, 100, -98, 1⟩
    = ⟨100.1, 480, c8Vx1, c8Vy1, 1⟩ := by
  rw [handleCollision_hit c8Track ⟨100.1, 999.902, 100, -98, 1⟩ 500 0 c8_tyA1 c8_slA1
    (by unfold wheelRadius; norm_num)]
  have hif : (if (0 : ℝ) < -98 then (0 : ℝ) else -98) = -98 := by norm_num
  have hfr : (100 : ℝ) * friction = 98 := by unfold friction; norm_num
  have hatan : atan2 (-98) 98 = -(Real.pi / 4) := by
    rw [atan2_pos_x (-98) 98 (by norm_num)]
    rw [show ((-98 : ℝ) / 98) = -1 by norm_num]
    rw [show ((-1 : ℝ)) = -(1 : ℝ) by norm_num, Real.arctan_neg, Real.arctan_one]
  apply Wheel.ext <;> dsimp only
  · unfold wheelRadius; norm_num
  · rw [hif, hfr, hatan, Real.arctan_zero]
    rw [show (98 : ℝ) * 98 + (-98) * (-98) = 19208 by norm_num]
    rw [show -(Real.pi / 4) * 0.8 + 0 * 0.2 = -(Real.pi / 5) by ring]
    rw [Real.cos_neg]
    rfl
  · rw [hif, hfr, hatan, Real.arctan_zero]
    rw [show (98 : ℝ) * 98 + (-98) * (-98) = 19208 by norm_num]
    rw [show -(Real.pi / 4) * 0.8 + 0 * 0.2 = -(Real.pi / 5) by ring]
    rw [Real.sin_neg]
    unfold c8Vy1
    ring

/-- Collision of wheel B in the first counterexample step (same as wheel A,
    shifted 60 to the right). -/
theorem c8_colB1 : handleCollision c8Track ⟨160.1, 999.902, 100, -98, 1⟩
    = ⟨160.1, 480, c8Vx1, c8Vy1, 1⟩ := by
  rw [handleCollision_hit c8Track ⟨160.1, 999.902, 100, -98, 1⟩ 500 0 c8_tyB1 c8_slB1
    (by unfold wheelRadius; norm_num)]
  have hif : (if (0 : ℝ) < -98 then (0 : ℝ) else -98) = -98 := by norm_num
  have hfr : (100 : ℝ) * friction = 98 := by unfold friction; norm_num
  have hatan : atan2 (-98) 98 = -(Real.pi / 4) := by
    rw [atan2_pos_x (-98) 98 (by norm_num)]
    rw [show ((-98 : ℝ) / 98) = -1 by norm_num]
    rw [show ((-1 : ℝ)) = -(1 : ℝ) by norm_num, Real.arctan_neg, Real.arctan_one]
  apply Wheel.ext <;> dsimp only
  · unfold wheelRadius; norm_num
  · rw [hif, hfr, hatan, Real.arctan_zero]
    rw [show (98 : ℝ) * 98 + (-98) * (-98) = 19208 by norm_num]
    rw [show -(Real.pi / 4) * 0.8 + 0 * 0.2 = -(Real.pi / 5) by ring]
    rw [Real.cos_neg]
    rfl
  · rw [hif, hfr, hatan, Real.arctan_zero]
    rw [show (98 : ℝ) * 98 + (-98) * (-98) = 19208 by norm_num]
    rw [show -(Real.pi / 4) * 0.8 + 0 * 0.2 = -(Real.pi / 5) by ring]
    rw [Real.sin_neg]
    unfold c8Vy1
    ring

/-- The tilt of the first counterexample step: rotating the clamped frame by
    +0.06 about its midpoint (130.1, 480) raises wheel A and sinks wheel B. -/
theorem c8_rot1 : rotateBike tiltStep ⟨100.1, 480, c8Vx1, c8Vy1, 1⟩ ⟨160.1, 480, c8Vx1, c8Vy1, 1⟩
    = (⟨130.1 - 30 * Real.cos 0.06, 480 - 30 * Real.sin 0.06, c8Vx1, c8Vy1, 1⟩,
       ⟨130.1 + 30 * Real.cos 0.06, 480 + 30 * Real.sin 0.06, c8Vx1, c8Vy1, 1⟩) := by
  unfold rotateBike rotateWheel tiltStep
  dsimp only
  rw [Prod.mk.injEq]
  constructor
  · apply Wheel.ext <;> dsimp only <;> norm_num [sub_eq_add_neg]
  · apply Wheel.ext <;> dsimp only <;> norm_num [sub_eq_add_neg]

/-- Full evaluation of the first counterexample step. -/
theorem c8_step1 : update c8State 6 = c8S1 := by
  simp only [update]
  rw [c8_dt1]
  simp only [c8State]
  rw [c8_A3, c8_B3, c8_con1]
  dsimp only
  rw [c8_colA1, c8_colB1]
  simp only [Bool.false_eq_true, if_false, if_true]
  rw [c8_rot1]
  rfl

/-- x of wheel A after the integration of the second counterexample step. -/
noncomputable def c8Ax2 : ℝ := 130.1 - 30 * Real.cos 0.06 + c8Vx1 * 0.001
/-- y of wheel A after the integration of the second counterexample step. -/
noncomputable def c8Ay2 : ℝ := 480 - 30 * Real.sin 0.06 + (c8Vy1 + 1.2) * 0.001
/-- x of wheel B after the integration of the second counterexample step. -/
noncomputable def c8Bx2 : ℝ := 130.1 + 30 * Real.cos 0.06 + c8Vx1 * 0.001
/-- y of wheel B after the integration of the second counterexample step. -/
noncomputable def c8By2 : ℝ := 480 + 30 * Real.sin 0.06 + (c8Vy1 + 1.2) * 0.001

/-- The ratio fed to `atan2` at wheel B's second collision, negated to be
    positive: upward speed over frictioned horizontal speed. -/
noncomputable def c8q : ℝ := -(c8Vy1 + 1.2) / (c8Vx1 * friction)

/-- Horizontal speed of wheel B after the second counterexample step. -/
noncomputable def c8Vx2 : ℝ :=
  Real.sqrt ((c8Vx1 * friction) * (c8Vx1 * friction) + (c8Vy1 + 1.2) * (c8Vy1 + 1.2))
  * Real.cos (Real.arctan c8q * 0.8)

/-- Bounds for `sqrt 2`. -/
theorem c8_sqrt2_bounds : (1.4142135 : ℝ) < Real.sqrt 2 ∧ Real.sqrt 2 < 1.4142136 :=
  ⟨(Real.lt_sqrt (by norm_num)).mpr (by norm_num),
   (Real.sqrt_lt' (by norm_num)).mpr (by norm_num)⟩

/-- Bounds for `sqrt 5`. -/
theorem c8_sqrt5_bounds : (2.2360679 : ℝ) < Real.sqrt 5 ∧ Real.sqrt 5 < 2.2360680 :=
  ⟨(Real.lt_sqrt (by norm_num)).mpr (by norm_num),
   (Real.sqrt_lt' (by norm_num)).mpr (by norm_num)⟩

/-- The collision-speed radical of the first counterexample step. -/
theorem c8_sqrtK : Real.sqrt 19208 = 98 * Real.sqrt 2 := by
  rw [show (19208 : ℝ) = 9604 * 2 by norm_num, Real.sqrt_mul (by norm_num) 2,
    sqrt_val (by norm_num : (0 : ℝ) ≤ 98) (by norm_num : (9604 : ℝ) = 98 * 98)]

/-- Bounds for the post-step-1 horizontal speed `c8Vx1 = 98 sqrt 2 cos (pi/5)`. -/
theorem c8_Vx1_bounds : (112.1239 : ℝ) < c8Vx1 ∧ c8Vx1 < 112.1242 := by
  obtain ⟨h2lo, h2hi⟩ := c8_sqrt2_bounds
  obtain ⟨h5lo, h5hi⟩ := c8_sqrt5_bounds
  unfold c8Vx1
  rw [c8_sqrtK, Real.cos_pi_div_five]
  constructor
  · nlinarith [h2lo, h5lo]
  · nlinarith [h2hi, h5hi, h2lo, h5lo]

/-- Bounds for `sin (pi/5)` via `sin^2 = 1 - cos^2` and the closed form of
    `cos (pi/5)`. -/
theorem c8_sin_pi5_bounds : (0.5877852 : ℝ) < Real.sin (Real.pi / 5) ∧
    Real.sin (Real.pi / 5) < 0.5877854 := by
  obtain ⟨h5lo, h5hi⟩ := c8_sqrt5_bounds
  have h5 : Real.sqrt 5 ^ 2 = 5 := Real.sq_sqrt (by norm_num)
  have hs5sq : Real.sin (Real.pi / 5) ^ 2 = (10 - 2 * Real.sqrt 5) / 16 := by
    rw [Real.sin_sq, Real.cos_pi_div_five]
    linear_combination (-(1 : ℝ) / 16) * h5
  have hs5pos : 0 < Real.sin (Real.pi / 5) :=
    Real.sin_pos_of_pos_of_lt_pi (by positivity) (by linarith [Real.pi_pos])
  constructor
  · have h : (0.5877852 : ℝ) ^ 2 < Real.sin (Real.pi / 5) ^ 2 := by
      rw [hs5sq]
      nlinarith [h5hi]
    exact lt_of_pow_lt_pow_left 2 hs5pos.le h
  · have h : Real.sin (Real.pi / 5) ^ 2 < (0.5877854 : ℝ) ^ 2 := by
      rw [hs5sq]
      nlinarith [h5lo]
    exact lt_of_pow_lt_pow_left 2 (by norm_num) h

/-- Bounds for the vertical speed of the wheels entering the second
    counterexample collision: `c8Vy1 + 1.2 = 1.2 - 98 sqrt 2 sin (pi/5)`. -/
theorem c8_Vy2_bounds : (-80.263 : ℝ) < c8Vy1 + 1.2 ∧ c8Vy1 + 1.2 < -80.26275 := by
  obtain ⟨h2lo, h2hi⟩ := c8_sqrt2_bounds
  obtain ⟨hslo, hshi⟩ := c8_sin_pi5_bounds
  have hspos : (0 : ℝ) < Real.sin (Real.pi / 5) := by linarith
  unfold c8Vy1
  rw [c8_sqrtK]
  constructor
  · nlinarith [h2hi, hshi, hspos, h2lo]
  · nlinarith [h2lo, hslo, hspos]

/-- The second counterexample step also runs with dt = 0.001. -/
theorem c8_dt2 : clampedDt c8S1 7 = 0.001 := by
  have h1 : effectiveLastTime c8S1 7 = 6 := by
    unfold effectiveLastTime c8S1
    norm_num
  unfold clampedDt
  rw [h1, min_eq_left (by norm_num)]
  norm_num

/-- Wheel A of the counterexample after gravity, control and integration of
    the second step. -/
theorem c8_A3x : integratePhase 0.001 (controlPhase false false 0.001
    (gravityPhase 0.001 (⟨130.1 - 30 * Real.cos 0.06, 480 - 30 * Real.sin 0.06,
      c8Vx1, c8Vy1, 1⟩ : Wheel))) = (⟨c8Ax2, c8Ay2, c8Vx1, c8Vy1 + 1.2, 1⟩ : Wheel) := by
  rw [controlPhase_none]
  unfold c8Ax2 c8Ay2
  apply Wheel.ext <;> dsimp only [integratePhase, gravityPhase]
  all_goals norm_num [gravity]

/-- Wheel B of the counterexample after gravity, control and integration of
    the second step. -/
theorem c8_B3x : integratePhase 0.001 (controlPhase false false 0.001
    (gravityPhase 0.001 (⟨130.1 + 30 * Real.cos 0.06, 480 + 30 * Real.sin 0.06,
      c8Vx1, c8Vy1, 1⟩ : Wheel))) = (⟨c8Bx2, c8By2, c8Vx1, c8Vy1 + 1.2, 1⟩ : Wheel) := by
  rw [controlPhase_none]
  unfold c8Bx2 c8By2
  apply Wheel.ext <;> dsimp only [integratePhase, gravityPhase]
  all_goals norm_num [gravity]

/-- In the second counterexample step the wheels are again exactly 60 apart
    (the tilt rotation is an isometry and both wheels moved identically), so
    the constraint solver does nothing. -/
theorem c8_con2 : enforceConstraint ⟨c8Ax2, c8Ay2, c8Vx1, c8Vy1 + 1.2, 1⟩
    ⟨c8Bx2, c8By2, c8Vx1, c8Vy1 + 1.2, 1⟩
    = (⟨c8Ax2, c8Ay2, c8Vx1, c8Vy1 + 1.2, 1⟩, ⟨c8Bx2, c8By2, c8Vx1, c8Vy1 + 1.2, 1⟩) := by
  apply enforceConstraint_skip
  have hd : wheelDist ⟨c8Ax2, c8Ay2, c8Vx1, c8Vy1 + 1.2, 1⟩ ⟨c8Bx2, c8By2, c8Vx1, c8Vy1 + 1.2, 1⟩
      = 60 := by
    unfold wheelDist
    dsimp only
    have hdx : c8Bx2 - c8Ax2 = 60 * Real.cos 0.06 := by
      unfold c8Bx2 c8Ax2
      ring
    have hdy : c8By2 - c8Ay2 = 60 * Real.sin 0.06 := by
      unfold c8By2 c8Ay2
      ring
    rw [hdx, hdy]
    have harg : 60 * Real.cos 0.06 * (60 * Real.cos 0.06)
        + 60 * Real.sin 0.06 * (60 * Real.sin 0.06) = 3600 := by
      linear_combination (3600 : ℝ) * Real.sin_sq_add_cos_sq 0.06
    rw [harg]
    exact sqrt_val (by norm_num) (by norm_num)
  rw [hd]
  unfold wheelDistance
  norm_num

/-- Wheel B's x position at the second collision stays inside the single
    segment's span. -/
theorem c8_Bx2_range : (0 : ℝ) ≤ c8Bx2 ∧ c8Bx2 ≤ 100000 := by
  obtain ⟨hvlo, hvhi⟩ := c8_Vx1_bounds
  have hclo : (-1 : ℝ) ≤ Real.cos 0.06 := Real.neg_one_le_cos 0.06
  have hchi : Real.cos 0.06 ≤ 1 := Real.cos_le_one 0.06
  unfold c8Bx2
  constructor <;> nlinarith [hclo, hchi, hvlo, hvhi]

/-- Track height query at wheel B's second collision. -/
theorem c8_tyB2 : getTrackY c8Track c8Bx2 = 500 := by
  have h := (getTrack_single ⟨0, 500, 0, 100000⟩ c8Bx2
    (by exact ⟨c8_Bx2_range.1, by simpa using c8_Bx2_range.2⟩)).1
  unfold c8Track
  rw [h]
  unfold lineAt
  ring

/-- Track slope query at wheel B's second collision. -/
theorem c8_slB2 : getTrackSlope c8Track c8Bx2 = 0 := by
  have h := (getTrack_single ⟨0, 500, 0, 100000⟩ c8Bx2
    (by exact ⟨c8_Bx2_range.1, by simpa using c8_Bx2_range.2⟩)).2
  unfold c8Track
  rw [h]

/-- Wheel B penetrates the terrain at the second step: the tilt pushed it
    `30 sin 0.06` below ground level, far more than one 1 ms frame of its
    upward motion can recover. -/
theorem c8_pen2 : (500 : ℝ) < c8By2 + wheelRadius := by
  obtain ⟨hv2lo, hv2hi⟩ := c8_Vy2_bounds
  have hsin : (0.06 : ℝ) - 0.06 ^ 3 / 4 < Real.sin 0.06 :=
    Real.sin_gt_sub_cube (by norm_num) (by norm_num)
  unfold c8By2 wheelRadius
  nlinarith [hsin, hv2lo]

/-- Horizontal speed of wheel B after its second collision. -/
theorem c8_colB2_vx : (handleCollision c8Track ⟨c8Bx2, c8By2, c8Vx1, c8Vy1 + 1.2, 1⟩).vx
    = c8Vx2 := by
  obtain ⟨hv2lo, hv2hi⟩ := c8_Vy2_bounds
  obtain ⟨hvlo, hvhi⟩ := c8_Vx1_bounds
  have hX2pos : 0 < c8Vx1 * friction := by
    unfold friction
    nlinarith [hvlo]
  rw [handleCollision_hit c8Track ⟨c8Bx2, c8By2, c8Vx1, c8Vy1 + 1.2, 1⟩ 500 0 c8_tyB2 c8_slB2
    (by exact c8_pen2)]
  dsimp only
  rw [if_neg (not_lt.mpr (by linarith : c8Vy1 + 1.2 ≤ 0))]
  rw [atan2_pos_x _ _ hX2pos, Real.arctan_zero]
  have hratio : (c8Vy1 + 1.2) / (c8Vx1 * friction) = -c8q := by
    unfold c8q
    ring
  rw [hratio, Real.arctan_neg]
  rw [show -Real.arctan c8q * 0.8 + 0 * 0.2 = -(Real.arctan c8q * 0.8) by ring]
  rw [Real.cos_neg]
  rfl

/-- Extraction of wheel B's horizontal speed after the full second step. -/
theorem c8_s2_vx : (update c8S1 7).wheelB.vx = c8Vx2 := by
  simp only [update]
  rw [c8_dt2]
  simp only [c8S1]
  rw [c8_A3x, c8_B3x, c8_con2]
  dsimp only
  simp only [Bool.false_eq_true, if_false, if_true]
  show (rotateBike tiltStep _ (handleCollision c8Track ⟨c8Bx2, c8By2, c8Vx1, c8Vy1 + 1.2, 1⟩)).2.vx
      = c8Vx2
  show (handleCollision c8Track ⟨c8Bx2, c8By2, c8Vx1, c8Vy1 + 1.2, 1⟩).vx = c8Vx2
  exact c8_colB2_vx

/-- The collision branch is taken for wheel B in the first counterexample
    step (the wheel is deep under the terrain). -/
theorem c8_taken1 : collisionTakenB c8State 6 := by
  unfold collisionTakenB preCollisionB
  rw [c8_dt1]
  simp only [c8State]
  rw [c8_A3, c8_B3, c8_con1]
  dsimp only
  rw [c8_tyB1]
  unfold wheelRadius
  norm_num

/-- The collision branch is taken for wheel B in the second counterexample
    step (the tilt pressed it below the surface while it moves upward). -/
theorem c8_taken2 : collisionTakenB c8S1 7 := by
  unfold collisionTakenB preCollisionB
  rw [c8_dt2]
  simp only [c8S1]
  rw [c8_A3x, c8_B3x, c8_con2]
  dsimp only
  rw [c8_tyB2]
  exact c8_pen2

/-- The core inequality of the C8 counterexample: the second collision's
    slope realignment converts part of the upward speed into horizontal
    speed, beating the friction factor: `c8Vx1 < c8Vx2`. -/
theorem c8_vx_increase : c8Vx1 < c8Vx2 := by
  obtain ⟨hvlo, hvhi⟩ := c8_Vx1_bounds
  obtain ⟨hv2lo, hv2hi⟩ := c8_Vy2_bounds
  have hX2lo : (109.8814 : ℝ) < c8Vx1 * friction := by
    unfold friction
    nlinarith [hvlo]
  have hX2hi : c8Vx1 * friction < 109.8818 := by
    unfold friction
    nlinarith [hvhi]
  have hX2pos : (0 : ℝ) < c8Vx1 * friction := by linarith
  have hqpos : 0 < c8q := by
    unfold c8q
    exact div_pos (by linarith) hX2pos
  have hqhi : c8q < 0.73046 := by
    unfold c8q
    rw [div_lt_iff hX2pos]
    nlinarith [hv2lo, hX2lo]
  have hψpos : 0 < Real.arctan c8q := by
    have h := Real.arctan_strictMono hqpos
    rwa [Real.arctan_zero] at h
  have hψlt : Real.arctan c8q < c8q := by
    have h := Real.lt_tan hψpos (Real.arctan_lt_pi_div_two c8q)
    rwa [Real.tan_arctan] at h
  have hcos : (0.82923 : ℝ) < Real.cos (Real.arctan c8q * 0.8) := by
    have h1 : 1 - (Real.arctan c8q * 0.8) ^ 2 / 2 ≤ Real.cos (Real.arctan c8q * 0.8) :=
      Real.one_sub_sq_div_two_le_cos
    nlinarith [h1, hψpos, hψlt, hqhi]
  have hv2 : (136.0725 : ℝ) < Real.sqrt ((c8Vx1 * friction) * (c8Vx1 * friction)
      + (c8Vy1 + 1.2) * (c8Vy1 + 1.2)) := by
    rw [Real.lt_sqrt (by norm_num)]
    nlinarith [hX2lo, hv2hi, hX2pos]
  unfold c8Vx2
  calc c8Vx1 < 112.1242 := hvhi
    _ < 136.0725 * 0.82923 := by norm_num
    _ ≤ Real.sqrt ((c8Vx1 * friction) * (c8Vx1 * friction)
          + (c8Vy1 + 1.2) * (c8Vy1 + 1.2)) * Real.cos (Real.arctan c8q * 0.8) := by
        exact mul_le_mul hv2.le hcos.le (by norm_num) (Real.sqrt_nonneg _)

/-- C8 counterexample: starting from `c8State` (flat terrain, both wheels
    underground moving up-right, tilt-right held, no accelerate/brake), the
    collision branch for wheel B is taken in both of the next two steps, yet
    `|vx|` of wheel B INCREASES from the end of step 1 to the end of step 2:
    the claimed non-increase of `|vx|` under sustained contact without
    accelerate/brake is false on the code. -/
theorem C8_counterexample :
    c8State.accelerate = false ∧ c8State.brake = false ∧
    collisionTakenB c8State 6 ∧ collisionTakenB (update c8State 6) 7 ∧
    ¬ (|(update (update c8State 6) 7).wheelB.vx| ≤ |(update c8State 6).wheelB.vx|) := by
  refine ⟨rfl, rfl, c8_taken1, ?_, ?_⟩
  · rw [c8_step1]
    exact c8_taken2
  · rw [c8_step1, c8_s2_vx]
    show ¬ (|c8Vx2| ≤ |c8Vx1|)
    have h1 : 0 < c8Vx1 := lt_trans (by norm_num) c8_Vx1_bounds.1
    have h2 : c8Vx1 < c8Vx2 := c8_vx_increase
    rw [abs_of_pos h1, abs_of_pos (lt_trans h1 h2)]
    exact not_le.mpr h2

end Click
